import Mathlib

/-!
# kube-oidc: `config.go`

A shallow embedding of `src/config.go`, the kubeconfig access layer and token
refresh driver of the kube-oidc credential helper, together with the
properties its specification states about it.

## Modelling conventions

* A Go `map[string]string` is an `AList` (association list with distinct keys);
  `m[k] = v` is `AList.insert`, `m[k]` with the comma-ok form is `AList.lookup`,
  `for k, v := range m` is `AList.foldl`.  A nil-able map is `Option StrMap`.
* A Go pointer that may be nil is an `Option`.
* A Go `error` result is `Option Err` (`none` is `nil`); a `(T, error)` result is
  `Except Err T` where the code never returns both, and a pair where a claim is
  about returning both (`updateToken`).
* The kubeconfig files are the state `World.config`.  Every function of
  `config.go` goes to the files through `k8s.io/client-go/tools/clientcmd`
  (`Load`, `ModifyConfig`, `PersisterForUser(..).Persist`); those library
  functions are modelled in the section "client-go" below.  Each access to the
  files can fail; the outcomes of the coming accesses are the script
  `World.faults`, so a statement over every `World` is a statement over every
  pattern of read and write failures.
* `OidcAuthHelper`, `OidcAuthHelperConfig` and `NewOidcAuthHelper` live in
  another file of the program; `updateToken` takes them as the parameter
  `Oidc`.
-/

namespace KubeOidc

/-! ## Data model -/

/-- Go `map[string]string`. -/
abbrev StrMap := AList (fun _ : String => String)

/-- Go error values, identified with their message. -/
abbrev Err := String

/-- The `api.AuthProviderConfig` record: a provider name and a nil-able config map. -/
structure AuthProviderConfig where
  name : String
  config : Option StrMap
deriving DecidableEq

/-- The `api.AuthInfo` record of one user: the credential fields kept in the
kubeconfig file and the optional auth-provider block. -/
structure AuthInfo where
  clientCertificate : String
  clientKey : String
  token : String
  tokenFile : String
  impersonate : String
  username : String
  password : String
  authProvider : Option AuthProviderConfig
deriving DecidableEq

/-- The `api.Cluster` record, reduced to its server address. -/
structure Cluster where
  server : String
deriving DecidableEq

/-- The `api.Context` record. -/
structure Context where
  cluster : String
  authInfo : String
  ns : String
deriving DecidableEq

/-- The `api.Config` record: the merged content of the kubeconfig files. -/
structure Config where
  currentContext : String
  clusters : AList (fun _ : String => Cluster)
  contexts : AList (fun _ : String => Context)
  authInfos : AList (fun _ : String => AuthInfo)
deriving DecidableEq

/-- The kubeconfig files as the program sees them: their content, and the
outcomes of the coming accesses (`some e`: the access fails with `e`; an
exhausted script means no further failure). -/
structure World where
  config : Config
  faults : List (Option Err)
deriving DecidableEq

/-- A dynamically typed Go value, as stored in the extra fields of a token. -/
inductive GoValue where
  | str (s : String)
  | num (n : Int)
  | bool (b : Bool)
  | null
deriving DecidableEq

/-- The `oauth2.Token` record. -/
structure Token where
  accessToken : String
  tokenType : String
  refreshToken : String
  raw : AList (fun _ : String => GoValue)
deriving DecidableEq

/-- The method `(*oauth2.Token).Extra`: the raw field under `key`, `none` for a
nil interface value. -/
def Token.extra (t : Token) (key : String) : Option GoValue :=
  t.raw.lookup key

/-- The `metav1.TypeMeta` record. -/
structure TypeMeta where
  kind : String
  apiVersion : String
deriving DecidableEq

/-- The `clientauth.Response` record of an exec credential request. -/
structure Response where
  header : AList (fun _ : String => List String)
  code : Int
deriving DecidableEq

/-- The `clientauth.ExecCredentialSpec` record. -/
structure ExecCredentialSpec where
  response : Option Response
  interactive : Bool
deriving DecidableEq

/-- The `clientauth.ExecCredentialStatus` record. -/
structure ExecCredentialStatus where
  expirationTimestamp : Option Int
  token : String
  clientCertificateData : String
  clientKeyData : String
deriving DecidableEq

/-- The `clientauth.ExecCredential` record: type meta, spec, and a nil-able
status. -/
structure ExecCredential where
  typeMeta : TypeMeta
  spec : ExecCredentialSpec
  status : Option ExecCredentialStatus
deriving DecidableEq

/-- The collaborators of `updateToken` defined outside `config.go`: the
conversion `SetFromAuthInfoConfig`, the constructor `NewOidcAuthHelper` and the
exchange `GetToken`. -/
structure Oidc (HelperConfig Helper : Type) where
  setFromAuthInfoConfig : StrMap → HelperConfig
  newOidcAuthHelper : HelperConfig → Except Err Helper
  getToken : Helper → Except Err Token

/-! ## client-go -/

/-- One access to the kubeconfig files: takes the next scripted outcome. -/
def World.access (w : World) : Option Err × World :=
  match w.faults with
  | [] => (none, w)
  | f :: fs => (f, { w with faults := fs })

/-- The method `ClientConfigLoadingRules.Load`: reads the files afresh on every
call and returns their merged content, or the read or parse error. -/
def load (w : World) : Except Err Config × World :=
  match w.access with
  | (some err, w1) => (.error err, w1)
  | (none, w1) => (.ok w1.config, w1)

/-- The method `ClientConfigLoadingRules.GetStartingConfig`: the content of the
files as `Load` gives it. -/
def getStartingConfig (w : World) : Except Err Config × World :=
  load w

/-- The function `clientcmd.ModifyConfig`: reads the starting config, then
writes the entries of `newConfig` that differ from it back to the files.  The
library skips the write when nothing differs; here the write is always
attempted, which only adds failing outcomes.  A failed write leaves the files
as they were. -/
def modifyConfig (newConfig : Config) (w : World) : Option Err × World :=
  match getStartingConfig w with
  | (.error err, w1) => (some err, w1)
  | (.ok _, w1) =>
    match w1.access with
    | (some err, w2) => (some err, w2)
    | (none, w2) => (none, { w2 with config := newConfig })

/-- The method `Persist` of `clientcmd.PersisterForUser(rules, user)`: reads the
starting config and returns the error of that read; when `user` has an entry
with an auth provider it replaces the config map of that provider, calls
`ModifyConfig` and discards its result; in every case after the read it returns
nil.  A write that fails is therefore not reported to the caller. -/
def persist (user : String) (config : Option StrMap) (w : World) : Option Err × World :=
  match getStartingConfig w with
  | (.error err, w1) => (some err, w1)
  | (.ok newConfig, w1) =>
    match newConfig.authInfos.lookup user with
    | some authInfo =>
      match authInfo.authProvider with
      | some provider =>
        (none,
          (modifyConfig
            { newConfig with
              authInfos := newConfig.authInfos.insert user
                { authInfo with authProvider := some { provider with config := config } } }
            w1).2)
      | none => (none, w1)
    | none => (none, w1)

/-- The function `api.NewAuthInfo`: a record with every field at its zero value. -/
def newAuthInfo : AuthInfo :=
  { clientCertificate := "", clientKey := "", token := "", tokenFile := "",
    impersonate := "", username := "", password := "", authProvider := none }

/-! ## config.go -/

/-- The function `isOidc`: the record is present, has an auth provider, and that provider is
named "oidc". -/
def isOidc (authInfo : Option AuthInfo) : Bool :=
  match authInfo with
  | some a =>
    match a.authProvider with
    | some provider => decide (provider.name = "oidc")
    | none => false
  | none => false

/-- The function `getAuthInfo`: loads the config and looks the user up; an absent user is
`(nil, nil)`. -/
def getAuthInfo (user : String) (w : World) : Except Err (Option AuthInfo) × World :=
  match load w with
  | (.error err, w1) => (.error err, w1)
  | (.ok config, w1) => (.ok (config.authInfos.lookup user), w1)

/-- The function `setAuthInfo`: loads the config, sets the entry of the user and writes the config
back with `ModifyConfig`. -/
def setAuthInfo (user : String) (authInfo : AuthInfo) (w : World) : Option Err × World :=
  match load w with
  | (.error err, w1) => (some err, w1)
  | (.ok config, w1) =>
    modifyConfig { config with authInfos := config.authInfos.insert user authInfo } w1

/-- The function `getAuthProviderConfig`: the config map of the auth provider of the user when the
user, the provider and the map are all non-nil, a fresh empty map otherwise. -/
def getAuthProviderConfig (user : String) (w : World) : Except Err StrMap × World :=
  match getAuthInfo user w with
  | (.error err, w1) => (.error err, w1)
  | (.ok authInfo, w1) =>
    match authInfo with
    | some a =>
      match a.authProvider with
      | some provider =>
        match provider.config with
        | some c => (.ok c, w1)
        | none => (.ok ∅, w1)
      | none => (.ok ∅, w1)
    | none => (.ok ∅, w1)

/-- The function `setAuthProviderConfig`: hands the map to the persister of the user. -/
def setAuthProviderConfig (user : String) (config : Option StrMap) (w : World) :
    Option Err × World :=
  persist user config w

/-- The function `updateAuthProviderConfig`: reads the current provider config of the user, assigns every
entry of `config` into it, and persists the result. -/
def updateAuthProviderConfig (user : String) (config : StrMap) (w : World) :
    Option Err × World :=
  match getAuthProviderConfig user w with
  | (.error err, w1) => (some err, w1)
  | (.ok currentConfig, w1) =>
    setAuthProviderConfig user
      (some (config.foldl (fun cur key value => cur.insert key value) currentConfig)) w1

/-- The function `createOidcAuthInfo`: refuses a user that already has an entry; otherwise
stores a new record whose auth provider is "oidc" with an empty config map. -/
def createOidcAuthInfo (user : String) (w : World) : Option Err × World :=
  match getAuthInfo user w with
  | (.error err, w1) => (some err, w1)
  | (.ok authInfo, w1) =>
    match authInfo with
    | some _ => (some ("user " ++ user ++ " does already exist"), w1)
    | none =>
      setAuthInfo user
        { newAuthInfo with authProvider := some { name := "oidc", config := some ∅ } } w1

/-- The function `oidcAuthHelperFromConfig`: builds the auth helper from the provider config
of the user. -/
def oidcAuthHelperFromConfig {HelperConfig Helper : Type} (oidc : Oidc HelperConfig Helper)
    (user : String) (w : World) : Except Err Helper × World :=
  match getAuthProviderConfig user w with
  | (.error err, w1) => (.error err, w1)
  | (.ok kubeConfig, w1) =>
    match oidc.newOidcAuthHelper (oidc.setFromAuthInfoConfig kubeConfig) with
    | .error err => (.error err, w1)
    | .ok authHelper => (.ok authHelper, w1)

/-- The partial mapping `updateToken` builds from the exchanged token (lines
119-125): the id token, and the refresh token when it is not empty. -/
def tokenConfig (id_token : String) (token : Token) : StrMap :=
  let config : StrMap := (∅ : StrMap).insert "id-token" id_token
  if token.refreshToken ≠ "" then config.insert "refresh-token" token.refreshToken
  else config

/-- The function `updateToken`: obtains a token through the auth helper, requires its
"id_token" extra field to be a string, and stores the id token (and the refresh
token when not empty) in the provider config of the user.  The result is the Go pair
`(*oauth2.Token, error)`. -/
def updateToken {HelperConfig Helper : Type} (oidc : Oidc HelperConfig Helper)
    (user : String) (w : World) : (Option Token × Option Err) × World :=
  match oidcAuthHelperFromConfig oidc user w with
  | (.error err, w1) => ((none, some err), w1)
  | (.ok authHelper, w1) =>
    match oidc.getToken authHelper with
    | .error err => ((none, some err), w1)
    | .ok token =>
      match token.extra "id_token" with
      | some (.str id_token) =>
        match updateAuthProviderConfig user (tokenConfig id_token token) w1 with
        | (some err, w2) => ((none, some err), w2)
        | (none, w2) => ((some token, none), w2)
      | _ => ((none, some "could not get id token from response"), w1)

/-- The credential object `renderExecCredential` builds (lines 135-144): the
fixed kind and API version, the zero-valued spec, and a status that holds the
token with every other field at its zero value. -/
def execCredential (token : String) : ExecCredential :=
  { typeMeta := { kind := "ExecCredential",
                  apiVersion := "client.authentication.k8s.io/v1alpha1" },
    spec := { response := none, interactive := false },
    status := some { expirationTimestamp := none, token := token,
                     clientCertificateData := "", clientKeyData := "" } }

/-- The function `renderExecCredential`: builds the credential object, serialises it with
`json.Marshal` (the parameter `marshal`) and prints the text.  The result is
the list of lines printed: on a serialisation error the error line, and in
every case the line holding the serialised bytes (empty after an error). -/
def renderExecCredential (marshal : ExecCredential → Except Err String) (token : String) :
    List String :=
  match marshal (execCredential token) with
  | .error err => ["error:  " ++ err, ""]
  | .ok bytes => [bytes]

/-! ## Derived notions -/

/-- The provider config map the files hold for a user, empty when the user, its
auth provider or the map is absent. -/
def storedConfig (cfg : Config) (user : String) : StrMap :=
  match cfg.authInfos.lookup user with
  | some a =>
    match a.authProvider with
    | some provider =>
      match provider.config with
      | some c => c
      | none => ∅
    | none => ∅
  | none => ∅

/-- The outcome of the `n`-th coming access to the files, counted from 0:
`none` when that access succeeds. -/
def World.outcome (w : World) (n : Nat) : Option Err :=
  w.faults.getD n none

/-- What `Persist` leaves in the files when the write of `ModifyConfig` goes
through. -/
def persisted (cfg : Config) (user : String) (config : Option StrMap) : Config :=
  match cfg.authInfos.lookup user with
  | some authInfo =>
    match authInfo.authProvider with
    | some provider =>
      { cfg with
        authInfos := cfg.authInfos.insert user
          { authInfo with authProvider := some { provider with config := config } } }
    | none => cfg
  | none => cfg

/-- The loop of `updateAuthProviderConfig`: every entry of `config` assigned
into `currentConfig`. -/
def merged (currentConfig config : StrMap) : StrMap :=
  config.foldl (fun cur key value => cur.insert key value) currentConfig

/-- The overlay of the specification: a key of `P` has the value of `P`, a key
only in `M` keeps the value of `M`, a key in neither is absent. -/
def overlay (M P : StrMap) (k : String) : Option String :=
  match P.lookup k with
  | some v => some v
  | none => M.lookup k

/-- The record `createOidcAuthInfo` stores. -/
def freshOidcAuthInfo : AuthInfo :=
  { newAuthInfo with authProvider := some { name := "oidc", config := some ∅ } }

/-! ## Example data -/

/-- The stored provider config of the refresh scenario. -/
def staleConfig : StrMap :=
  ((∅ : StrMap).insert "refresh-token" "r1").insert "id-token" "stale"

/-- A user record with an "oidc" auth provider holding `staleConfig`. -/
def aliceAuthInfo : AuthInfo :=
  { newAuthInfo with authProvider := some { name := "oidc", config := some staleConfig } }

/-- A user record with a static bearer token and no auth provider. -/
def bobAuthInfo : AuthInfo :=
  { newAuthInfo with token := "static-bearer" }

/-- A config with no entries at all. -/
def emptyConfig : Config :=
  { currentContext := "", clusters := ∅, contexts := ∅, authInfos := ∅ }

/-- The empty store, with no access failing. -/
def emptyWorld : World :=
  { config := emptyConfig, faults := [] }

/-- A store holding the users "alice" (OIDC) and "bob" (static token). -/
def aliceConfig : Config :=
  { emptyConfig with
    authInfos := ((∅ : AList (fun _ : String => AuthInfo)).insert "bob" bobAuthInfo).insert
      "alice" aliceAuthInfo }

/-- The store `aliceConfig`, with no access failing. -/
def aliceWorld : World :=
  { config := aliceConfig, faults := [] }

/-- The store `aliceConfig` whose fifth access, the write of `ModifyConfig`
inside `updateToken`, fails. -/
def readOnlyWorld : World :=
  { config := aliceConfig, faults := [none, none, none, none, some "permission denied"] }

/-- The store `aliceConfig` whose third access fails: inside `updateToken` that
is the read of the starting config by `Persist`. -/
def lockedWorld : World :=
  { config := aliceConfig, faults := [none, none, some "error loading config file"] }

/-- The store `aliceConfig` whose second read fails: the files became
unreadable while the exchange was running. -/
def unreadableWorld : World :=
  { config := aliceConfig, faults := [none, some "error loading config file"] }

/-- An exchange result with a fresh id token and an empty refresh token. -/
def freshToken : Token :=
  { accessToken := "at", tokenType := "Bearer", refreshToken := "",
    raw := (∅ : AList (fun _ : String => GoValue)).insert "id_token" (GoValue.str "fresh") }

/-- An exchange result with a fresh id token and a new refresh token. -/
def rotatedToken : Token :=
  { freshToken with refreshToken := "r2" }

/-- An exchange result without an "id_token" field. -/
def bareToken : Token :=
  { accessToken := "at", tokenType := "Bearer", refreshToken := "r2", raw := ∅ }

/-- Collaborators whose exchange always returns `token`. -/
def oidcReturning (token : Token) : Oidc StrMap Unit :=
  { setFromAuthInfoConfig := fun kubeConfig => kubeConfig,
    newOidcAuthHelper := fun _ => .ok (),
    getToken := fun _ => .ok token }

/-- The partial mapping of the merge counterexample. -/
def idTokenOnly : StrMap :=
  (∅ : StrMap).insert "id-token" "fresh"

/-! ## The file accesses -/

theorem access_config (w : World) : w.access.2.config = w.config := by
  unfold World.access
  split <;> rfl

theorem load_cases (w : World) :
    (∃ e w1, load w = (.error e, w1) ∧ w.access.1 = some e ∧ w1.config = w.config) ∨
    (∃ w1, load w = (.ok w.config, w1) ∧ w.access.1 = none ∧ w1.config = w.config) := by
  have hc := access_config w
  unfold load
  rcases h : w.access with ⟨_ | e, w1⟩
  · right
    rw [h] at hc
    exact ⟨w1, by simp [← hc], rfl, hc⟩
  · left
    rw [h] at hc
    exact ⟨e, w1, rfl, rfl, hc⟩

theorem load_snd (w : World) : (load w).2 = w.access.2 := by
  unfold load
  rcases h : w.access with ⟨_ | e, w1⟩ <;> rfl

theorem access_fst (w : World) : w.access.1 = w.outcome 0 := by
  obtain ⟨cfg, faults⟩ := w
  cases faults <;> rfl

theorem outcome_access (w : World) (n : Nat) : w.access.2.outcome n = w.outcome (n + 1) := by
  obtain ⟨cfg, faults⟩ := w
  cases faults <;> simp [World.access, World.outcome]

theorem modifyConfig_cases (c : Config) (w : World) :
    (∃ e w1, modifyConfig c w = (some e, w1) ∧ w1.config = w.config ∧
      ¬(w.outcome 0 = none ∧ w.outcome 1 = none)) ∨
    (∃ w1, modifyConfig c w = (none, w1) ∧ w1.config = c ∧
      w.outcome 0 = none ∧ w.outcome 1 = none) := by
  have hs := load_snd w
  have ho1 : w.access.2.access.1 = w.outcome 1 := by rw [access_fst, outcome_access]
  unfold modifyConfig getStartingConfig
  rcases load_cases w with ⟨e, w1, h, ha, hc⟩ | ⟨w1, h, ha, hc⟩
  · left
    rw [access_fst] at ha
    exact ⟨e, w1, by simp [h], hc, by simp [ha]⟩
  · rw [h] at hs
    simp only at hs
    subst hs
    rw [access_fst] at ha
    have hc2 := access_config w.access.2
    rcases h2 : w.access.2.access with ⟨_ | e, w2⟩
    · right
      rw [h2] at ho1
      exact ⟨{ w2 with config := c }, by simp [h, h2], rfl, ha, ho1.symm⟩
    · left
      rw [h2] at hc2 ho1
      exact ⟨e, w2, by simp [h, h2], hc2.trans hc, by simp [← ho1]⟩

theorem persist_cases (user : String) (config : Option StrMap) (w : World) :
    (∃ e w1, persist user config w = (some e, w1) ∧ w1.config = w.config) ∨
    (∃ w1, persist user config w = (none, w1) ∧ w.outcome 0 = none ∧
      w1.config =
        if w.outcome 1 = none ∧ w.outcome 2 = none then persisted w.config user config
        else w.config) := by
  have hs := load_snd w
  unfold persist getStartingConfig
  rcases load_cases w with ⟨e, w1, h, -, hc⟩ | ⟨w1, h, ha, hc⟩
  · left; exact ⟨e, w1, by simp [h], hc⟩
  · rw [h] at hs ⊢
    simp only at hs
    subst hs
    rw [access_fst] at ha
    right
    rcases hl : w.config.authInfos.lookup user with _ | authInfo
    · exact ⟨w.access.2, by simp [hl], ha, by simp [persisted, hl, hc]⟩
    · rcases hp : authInfo.authProvider with _ | provider
      · exact ⟨w.access.2, by simp [hl, hp], ha, by simp [persisted, hl, hp, hc]⟩
      · simp only [hl, hp]
        refine ⟨_, rfl, ha, ?_⟩
        rcases modifyConfig_cases
          { w.config with
            authInfos := w.config.authInfos.insert user
              { authInfo with authProvider := some { provider with config := config } } }
          w.access.2
          with ⟨e, w2, h2, hc2, hno⟩ | ⟨w2, h2, hc2, ho1, ho2⟩
        · rw [outcome_access, outcome_access] at hno
          rw [h2, if_neg hno]
          exact hc2.trans hc
        · rw [outcome_access] at ho1 ho2
          rw [h2, if_pos ⟨ho1, ho2⟩]
          simp [hc2, persisted, hl, hp]

theorem persisted_lookup_ne (cfg : Config) (user other : String) (config : Option StrMap)
    (h : other ≠ user) :
    (persisted cfg user config).authInfos.lookup other = cfg.authInfos.lookup other := by
  unfold persisted
  split
  · split
    · exact AList.lookup_insert_ne h
    · rfl
  · rfl

theorem getAuthInfo_cases (user : String) (w : World) :
    (∃ e w1, getAuthInfo user w = (.error e, w1) ∧ w.access.1 = some e ∧ w1.config = w.config) ∨
    (∃ w1, getAuthInfo user w = (.ok (w.config.authInfos.lookup user), w1) ∧
      w.access.1 = none ∧ w1.config = w.config) := by
  unfold getAuthInfo
  rcases load_cases w with ⟨e, w1, h, ha, hc⟩ | ⟨w1, h, ha, hc⟩
  · left; exact ⟨e, w1, by simp [h], ha, hc⟩
  · right; exact ⟨w1, by simp [h], ha, hc⟩

theorem getAuthProviderConfig_cases (user : String) (w : World) :
    (∃ e w1, getAuthProviderConfig user w = (.error e, w1) ∧ w.access.1 = some e ∧
      w1.config = w.config) ∨
    (∃ w1, getAuthProviderConfig user w = (.ok (storedConfig w.config user), w1) ∧
      w.access.1 = none ∧ w1.config = w.config) := by
  unfold getAuthProviderConfig storedConfig
  rcases getAuthInfo_cases user w with ⟨e, w1, h, ha, hc⟩ | ⟨w1, h, ha, hc⟩
  · left; exact ⟨e, w1, by simp [h], ha, hc⟩
  · right
    refine ⟨w1, ?_, ha, hc⟩
    rw [h]
    rcases hl : w.config.authInfos.lookup user with _ | a
    · rfl
    · rcases hp : a.authProvider with _ | provider
      · simp [hp]
      · rcases hcfg : provider.config with _ | c <;> simp [hp, hcfg]

theorem setAuthInfo_cases (user : String) (authInfo : AuthInfo) (w : World) :
    (∃ e w1, setAuthInfo user authInfo w = (some e, w1) ∧ w1.config = w.config) ∨
    (∃ w1, setAuthInfo user authInfo w = (none, w1) ∧
      w1.config = { w.config with authInfos := w.config.authInfos.insert user authInfo }) := by
  unfold setAuthInfo
  rcases load_cases w with ⟨e, w1, h, -, hc⟩ | ⟨w1, h, -, hc⟩
  · left; exact ⟨e, w1, by simp [h], hc⟩
  · rw [h]
    rcases modifyConfig_cases
      { w.config with authInfos := w.config.authInfos.insert user authInfo } w1
      with ⟨e, w2, h2, hc2, -⟩ | ⟨w2, h2, hc2, -, -⟩
    · left; exact ⟨e, w2, h2, hc2.trans hc⟩
    · right; exact ⟨w2, h2, hc2⟩

theorem createOidcAuthInfo_cases (user : String) (w : World) :
    (∃ e w1, createOidcAuthInfo user w = (some e, w1) ∧ w1.config = w.config) ∨
    (∃ w1, createOidcAuthInfo user w = (none, w1) ∧ w.config.authInfos.lookup user = none ∧
      w1.config = { w.config with authInfos := w.config.authInfos.insert user freshOidcAuthInfo }) := by
  unfold createOidcAuthInfo
  rcases getAuthInfo_cases user w with ⟨e, w1, h, -, hc⟩ | ⟨w1, h, -, hc⟩
  · left; exact ⟨e, w1, by simp [h], hc⟩
  · rw [h]
    rcases hl : w.config.authInfos.lookup user with _ | a
    · simp only
      rcases setAuthInfo_cases user freshOidcAuthInfo w1 with ⟨e, w2, h2, hc2⟩ | ⟨w2, h2, hc2⟩
      · left; exact ⟨e, w2, h2, hc2.trans hc⟩
      · right; exact ⟨w2, h2, trivial, by rw [hc2, hc]⟩
    · left; exact ⟨_, w1, rfl, hc⟩

theorem lookup_foldl_insert (l : List (Σ _ : String, String)) (hl : l.NodupKeys)
    (M : StrMap) (k : String) :
    (l.foldl (fun (r : StrMap) a => r.insert a.1 a.2) M).lookup k =
      match l.dlookup k with
      | some v => some v
      | none => M.lookup k := by
  induction l generalizing M with
  | nil => simp
  | cons x l ih =>
    obtain ⟨a, b⟩ := x
    rw [List.nodupKeys_cons] at hl
    simp only [List.foldl_cons]
    rw [ih hl.2]
    by_cases hk : k = a
    · subst hk
      have hnone : l.dlookup k = none := List.dlookup_eq_none.2 hl.1
      simp [hnone, AList.lookup_insert]
    · rw [List.dlookup_cons_ne l ⟨a, b⟩ hk, AList.lookup_insert_ne hk]

theorem lookup_merged (M P : StrMap) (k : String) :
    (merged M P).lookup k = overlay M P k :=
  lookup_foldl_insert P.entries P.nodupKeys M k

theorem getAuthProviderConfig_snd (user : String) (w : World) :
    (getAuthProviderConfig user w).2 = w.access.2 := by
  have hs := load_snd w
  unfold getAuthProviderConfig getAuthInfo
  rcases hl : load w with ⟨_ | config, w1⟩
  · rw [hl] at hs; exact hs
  · rw [hl] at hs
    simp only at hs ⊢
    rcases hu : config.authInfos.lookup user with _ | a
    · exact hs
    · rcases hp : a.authProvider with _ | provider
      · simpa [hp] using hs
      · rcases hc : provider.config with _ | c <;> simpa [hp, hc] using hs

theorem updateAuthProviderConfig_cases (user : String) (config : StrMap) (w : World) :
    (∃ e w1, updateAuthProviderConfig user config w = (some e, w1) ∧ w1.config = w.config) ∨
    (∃ w1, updateAuthProviderConfig user config w = (none, w1) ∧ w.access.1 = none ∧
      w1.config =
        if w.outcome 2 = none ∧ w.outcome 3 = none then
          persisted w.config user (some (merged (storedConfig w.config user) config))
        else w.config) := by
  have hs := getAuthProviderConfig_snd user w
  unfold updateAuthProviderConfig setAuthProviderConfig
  rcases getAuthProviderConfig_cases user w with ⟨e, w1, h, -, hc⟩ | ⟨w1, h, ha, hc⟩
  · left; exact ⟨e, w1, by simp [h], hc⟩
  · rw [h] at hs ⊢
    simp only at hs
    subst hs
    rcases persist_cases user (some (merged (storedConfig w.config user) config)) w.access.2
      with ⟨e, w2, h2, hc2⟩ | ⟨w2, h2, -, hc2⟩
    · left; exact ⟨e, w2, h2, hc2.trans hc⟩
    · right
      refine ⟨w2, h2, ha, ?_⟩
      rw [hc2, outcome_access, outcome_access, hc]

theorem storedConfig_persisted (cfg : Config) (user : String) (m : StrMap) (a : AuthInfo)
    (provider : AuthProviderConfig) (hu : cfg.authInfos.lookup user = some a)
    (hp : a.authProvider = some provider) :
    storedConfig (persisted cfg user (some m)) user = m := by
  simp [storedConfig, persisted, hu, hp, AList.lookup_insert]

theorem oidcAuthHelperFromConfig_ok {HelperConfig Helper : Type}
    (oidc : Oidc HelperConfig Helper) (user : String) (w w1 : World) (helper : Helper)
    (hh : oidcAuthHelperFromConfig oidc user w = (.ok helper, w1)) :
    w1 = w.access.2 ∧ w1.config = w.config ∧ w.access.1 = none := by
  unfold oidcAuthHelperFromConfig at hh
  have hs := getAuthProviderConfig_snd user w
  rcases getAuthProviderConfig_cases user w with ⟨e, w2, hl, ha, hc⟩ | ⟨w2, hl, ha, hc⟩
  · rw [hl] at hh; simp at hh
  · rw [hl] at hh hs
    simp only at hs hh
    rcases hn : oidc.newOidcAuthHelper
      (oidc.setFromAuthInfoConfig (storedConfig w.config user)) with e | h2
    · rw [hn] at hh; simp at hh
    · rw [hn] at hh
      have h2 : w2 = w1 := (Prod.mk.inj hh).2
      subst h2
      exact ⟨hs, hc, ha⟩

theorem updateToken_after_exchange {HelperConfig Helper : Type}
    (oidc : Oidc HelperConfig Helper) (user : String) (w w1 : World) (helper : Helper)
    (tok : Token) (t : String)
    (hh : oidcAuthHelperFromConfig oidc user w = (.ok helper, w1))
    (ht : oidc.getToken helper = .ok tok)
    (hid : tok.extra "id_token" = some (.str t)) :
    updateToken oidc user w =
      match updateAuthProviderConfig user (tokenConfig t tok) w1 with
      | (some err, w2) => ((none, some err), w2)
      | (none, w2) => ((some tok, none), w2) := by
  simp [updateToken, hh, ht, hid]

theorem lookup_tokenConfig (t : String) (tok : Token) (k : String) :
    (tokenConfig t tok).lookup k =
      if k = "id-token" then some t
      else if k = "refresh-token" ∧ tok.refreshToken ≠ "" then some tok.refreshToken
      else none := by
  have hne : "id-token" ≠ "refresh-token" := by decide
  unfold tokenConfig
  by_cases hr : tok.refreshToken = ""
  · by_cases hk : k = "id-token"
    · subst hk; simp [hr, AList.lookup_insert, -AList.insert_empty]
    · simp [hr, hk, AList.lookup_insert_ne hk, -AList.insert_empty]
  · by_cases hk : k = "id-token"
    · subst hk; simp [hr, AList.lookup_insert_ne hne, AList.lookup_insert, -AList.insert_empty]
    · by_cases hk2 : k = "refresh-token"
      · subst hk2; simp [hr, AList.lookup_insert, -AList.insert_empty]
      · simp [hr, hk, hk2, AList.lookup_insert_ne hk, AList.lookup_insert_ne hk2, -AList.insert_empty]

theorem storedConfig_lookup_some (cfg : Config) (user k v : String)
    (h : (storedConfig cfg user).lookup k = some v) :
    ∃ a provider, cfg.authInfos.lookup user = some a ∧ a.authProvider = some provider := by
  unfold storedConfig at h
  rcases hu : cfg.authInfos.lookup user with _ | a
  · simp [hu] at h
  · rcases hp : a.authProvider with _ | provider
    · simp [hu, hp] at h
    · exact ⟨a, provider, rfl, hp⟩

/-! ## The claims -/

/-- C9: `getAuthProviderConfig` fails exactly when loading the store fails, and
with the load error; when the load succeeds it returns the stored provider
config if the user has an auth provider with a non-nil config map, and the
empty mapping in every other case (user absent, provider absent, map nil). -/
theorem getAuthProviderConfig_total (user : String) (w : World) :
    (getAuthProviderConfig user w).1 =
      (match (load w).1 with
       | .error e => .error e
       | .ok config =>
         match config.authInfos.lookup user with
         | none => .ok ∅
         | some a =>
           match a.authProvider with
           | none => .ok ∅
           | some provider =>
             match provider.config with
             | none => .ok ∅
             | some c => .ok c) ∧
    ((∃ e, (getAuthProviderConfig user w).1 = .error e) ↔ ∃ e, (load w).1 = .error e) := by
  unfold getAuthProviderConfig getAuthInfo
  rcases hl : load w with ⟨_ | config, w1⟩
  · simp
  · simp only
    rcases hu : config.authInfos.lookup user with _ | a
    · simp
    · rcases hp : a.authProvider with _ | provider
      · simp [hp]
      · rcases hc : provider.config with _ | c <;> simp [hp, hc]

/-- C3: for a user that already has an auth-info entry of any kind,
`createOidcAuthInfo` returns an error (the load error when the store cannot be
read, the "does already exist" error otherwise), performs the single read and
no further access, and leaves the store exactly as it was. -/
theorem createOidcAuthInfo_existing (user : String) (w : World) (a : AuthInfo)
    (h : w.config.authInfos.lookup user = some a) :
    (createOidcAuthInfo user w).1 =
      some (match w.access.1 with
            | some e => e
            | none => "user " ++ user ++ " does already exist") ∧
    (createOidcAuthInfo user w).2 = w.access.2 ∧
    (createOidcAuthInfo user w).2.config = w.config := by
  have hs := load_snd w
  unfold createOidcAuthInfo getAuthInfo
  rcases load_cases w with ⟨e, w1, hl, ha, hc⟩ | ⟨w1, hl, ha, hc⟩
  · rw [hl] at hs
    simp [hl, ha, ← hs, hc]
  · rw [hl] at hs
    simp [hl, ha, h, ← hs, hc]

/-- Witness of C3: "alice" already exists in the store `aliceConfig`. -/
theorem createOidcAuthInfo_existing_witness :
    (createOidcAuthInfo "alice" aliceWorld).1 = some "user alice does already exist" ∧
    (createOidcAuthInfo "alice" aliceWorld).2.config = aliceConfig :=
  ⟨(createOidcAuthInfo_existing "alice" aliceWorld aliceAuthInfo rfl).1,
   (createOidcAuthInfo_existing "alice" aliceWorld aliceAuthInfo rfl).2.2⟩

/-- C4: for two distinct users A and B, `createOidcAuthInfo A`,
`setAuthInfo A r`, `setAuthProviderConfig A c` and `updateAuthProviderConfig A p`,
whether they succeed or fail, leave the entry of B as it was (the same record,
or absent as before). -/
theorem other_user_untouched (A B : String) (hAB : A ≠ B) (w : World) (r : AuthInfo)
    (c : Option StrMap) (p : StrMap) :
    (createOidcAuthInfo A w).2.config.authInfos.lookup B = w.config.authInfos.lookup B ∧
    (setAuthInfo A r w).2.config.authInfos.lookup B = w.config.authInfos.lookup B ∧
    (setAuthProviderConfig A c w).2.config.authInfos.lookup B = w.config.authInfos.lookup B ∧
    (updateAuthProviderConfig A p w).2.config.authInfos.lookup B =
      w.config.authInfos.lookup B := by
  have hBA : B ≠ A := fun h => hAB h.symm
  refine ⟨?_, ?_, ?_, ?_⟩
  · rcases createOidcAuthInfo_cases A w with ⟨e, w1, h, hc⟩ | ⟨w1, h, -, hc⟩
    · rw [h]; simp [hc]
    · rw [h]; simp only [hc]; exact AList.lookup_insert_ne hBA
  · rcases setAuthInfo_cases A r w with ⟨e, w1, h, hc⟩ | ⟨w1, h, hc⟩
    · rw [h]; simp [hc]
    · rw [h]; simp only [hc]; exact AList.lookup_insert_ne hBA
  · unfold setAuthProviderConfig
    rcases persist_cases A c w with ⟨e, w1, h, hc⟩ | ⟨w1, h, -, hc⟩
    · rw [h]; simp [hc]
    · rw [h]; simp only [hc]
      split
      · exact persisted_lookup_ne _ _ _ _ hBA
      · rfl
  · rcases updateAuthProviderConfig_cases A p w with ⟨e, w1, h, hc⟩ | ⟨w1, h, -, hc⟩
    · rw [h]; simp [hc]
    · rw [h]; simp only [hc]
      split
      · exact persisted_lookup_ne _ _ _ _ hBA
      · rfl

/-- Witness of C4: operations on "alice" leave the record of "bob" in place. -/
theorem other_user_untouched_witness :
    (createOidcAuthInfo "alice" aliceWorld).2.config.authInfos.lookup "bob" = some bobAuthInfo ∧
    (setAuthInfo "alice" bobAuthInfo aliceWorld).2.config.authInfos.lookup "bob" =
      some bobAuthInfo ∧
    (setAuthProviderConfig "alice" none aliceWorld).2.config.authInfos.lookup "bob" =
      some bobAuthInfo ∧
    (updateAuthProviderConfig "alice" idTokenOnly readOnlyWorld).2.config.authInfos.lookup "bob" =
      some bobAuthInfo :=
  ⟨(other_user_untouched "alice" "bob" (by decide) aliceWorld bobAuthInfo none idTokenOnly).1,
   (other_user_untouched "alice" "bob" (by decide) aliceWorld bobAuthInfo none idTokenOnly).2.1,
   (other_user_untouched "alice" "bob" (by decide) aliceWorld bobAuthInfo none idTokenOnly).2.2.1,
   (other_user_untouched "alice" "bob" (by decide) readOnlyWorld bobAuthInfo none
      idTokenOnly).2.2.2⟩

/-- C10: for every token string, the object `renderExecCredential` builds and
hands to the serialiser has kind "ExecCredential", API version
"client.authentication.k8s.io/v1alpha1", the empty (zero-valued) spec, and a
status whose token is the given string unchanged; what is printed is the
serialisation of exactly that object. -/
theorem renderExecCredential_object (token : String)
    (marshal : ExecCredential → Except Err String) :
    (execCredential token).typeMeta.kind = "ExecCredential" ∧
    (execCredential token).typeMeta.apiVersion = "client.authentication.k8s.io/v1alpha1" ∧
    (execCredential token).spec = { response := none, interactive := false } ∧
    (∃ status, (execCredential token).status = some status ∧ status.token = token) ∧
    renderExecCredential marshal token =
      (match marshal (execCredential token) with
       | .error err => ["error:  " ++ err, ""]
       | .ok bytes => [bytes]) :=
  ⟨rfl, rfl, rfl, ⟨_, rfl, rfl⟩, rfl⟩

/-- C5: when the exchange returns a token whose "id_token" extra field is
absent or is not a string, `updateToken` returns the error "could not get id
token from response" and no token; the only access to the store was the read
that built the helper, so the store is unchanged. -/
theorem updateToken_malformed {HelperConfig Helper : Type}
    (oidc : Oidc HelperConfig Helper) (user : String) (w w1 : World) (helper : Helper)
    (tok : Token)
    (hh : oidcAuthHelperFromConfig oidc user w = (.ok helper, w1))
    (ht : oidc.getToken helper = .ok tok)
    (hbad : ∀ s, tok.extra "id_token" ≠ some (.str s)) :
    (updateToken oidc user w).1 = (none, some "could not get id token from response") ∧
    (updateToken oidc user w).2 = w.access.2 ∧
    (updateToken oidc user w).2.config = w.config := by
  obtain ⟨h1, h2, -⟩ := oidcAuthHelperFromConfig_ok oidc user w w1 helper hh
  have hres : updateToken oidc user w =
      ((none, some "could not get id token from response"), w1) := by
    unfold updateToken
    rw [hh]
    rcases hx : tok.extra "id_token" with _ | v
    · simp [ht, hx]
    · cases v with
      | str s => exact absurd hx (hbad s)
      | num n => simp [ht, hx]
      | bool b => simp [ht, hx]
      | null => simp [ht, hx]
  rw [hres]
  exact ⟨rfl, h1, h2⟩

/-- Witness of C5: the exchange returns a token without an "id_token" field. -/
theorem updateToken_malformed_witness :
    (updateToken (oidcReturning bareToken) "alice" aliceWorld).1 =
      (none, some "could not get id token from response") ∧
    (updateToken (oidcReturning bareToken) "alice" aliceWorld).2.config = aliceConfig :=
  ⟨(updateToken_malformed (oidcReturning bareToken) "alice" aliceWorld aliceWorld () bareToken
      rfl rfl (by intro s h; cases h)).1,
   (updateToken_malformed (oidcReturning bareToken) "alice" aliceWorld aliceWorld () bareToken
      rfl rfl (by intro s h; cases h)).2.2⟩

/-- C6, the claim refuted: on the store `readOnlyWorld` the exchange returns
`rotatedToken` (id token "fresh", refresh token "r2"), the write of
`ModifyConfig` fails, `Persist` discards that error, and `updateToken` succeeds
with the token while the stored config still holds "stale" and "r1". -/
theorem updateToken_persists_counterexample :
    oidcAuthHelperFromConfig (oidcReturning rotatedToken) "alice" readOnlyWorld =
      (.ok (), readOnlyWorld.access.2) ∧
    (oidcReturning rotatedToken).getToken () = .ok rotatedToken ∧
    rotatedToken.extra "id_token" = some (.str "fresh") ∧
    rotatedToken.refreshToken = "r2" ∧
    (updateToken (oidcReturning rotatedToken) "alice" readOnlyWorld).1 =
      (some rotatedToken, none) ∧
    (storedConfig (updateToken (oidcReturning rotatedToken) "alice" readOnlyWorld).2.config
        "alice").lookup "id-token" = some "stale" ∧
    (storedConfig (updateToken (oidcReturning rotatedToken) "alice" readOnlyWorld).2.config
        "alice").lookup "refresh-token" = some "r1" :=
  ⟨rfl, rfl, rfl, rfl, rfl, rfl, rfl⟩

/-- C6 as amended: for an exchange result with string id token `t`, the
partial mapping `updateToken` hands to `updateAuthProviderConfig` holds
"id-token" with value `t`, "refresh-token" with the returned refresh token
exactly when that is not empty, and no other key; and for a user with a stored
provider config (an entry with an auth provider), after a successful
`updateToken` with a non-empty refresh token `r`: when neither file access of
`ModifyConfig` (the fourth and fifth access of `updateToken`) fails, the stored
config has "id-token" set to `t`, "refresh-token" set to `r`, and every other
key as before; when one of them fails, the store is as it was. -/
theorem updateToken_persists {HelperConfig Helper : Type}
    (oidc : Oidc HelperConfig Helper) (user : String) (w w1 : World) (helper : Helper)
    (tok : Token) (t : String)
    (hh : oidcAuthHelperFromConfig oidc user w = (.ok helper, w1))
    (ht : oidc.getToken helper = .ok tok)
    (hid : tok.extra "id_token" = some (.str t)) :
    (∀ k, (tokenConfig t tok).lookup k =
      if k = "id-token" then some t
      else if k = "refresh-token" ∧ tok.refreshToken ≠ "" then some tok.refreshToken
      else none) ∧
    (updateToken oidc user w).2 = (updateAuthProviderConfig user (tokenConfig t tok) w1).2 ∧
    (∀ a provider, w.config.authInfos.lookup user = some a → a.authProvider = some provider →
      (updateToken oidc user w).1.2 = none → tok.refreshToken ≠ "" →
      (updateToken oidc user w).1.1 = some tok ∧
      ((w.outcome 3 = none ∧ w.outcome 4 = none) →
        ∀ k, (storedConfig (updateToken oidc user w).2.config user).lookup k =
          if k = "id-token" then some t
          else if k = "refresh-token" then some tok.refreshToken
          else (storedConfig w.config user).lookup k) ∧
      (¬(w.outcome 3 = none ∧ w.outcome 4 = none) →
        (updateToken oidc user w).2.config = w.config)) := by
  obtain ⟨h1, h2, -⟩ := oidcAuthHelperFromConfig_ok oidc user w w1 helper hh
  have hres := updateToken_after_exchange oidc user w w1 helper tok t hh ht hid
  refine ⟨lookup_tokenConfig t tok, ?_, ?_⟩
  · rw [hres]
    split <;> next heq => rw [heq]
  · intro a provider hu hp hok hr
    rcases updateAuthProviderConfig_cases user (tokenConfig t tok) w1
      with ⟨e, w2, h, hc⟩ | ⟨w2, h, -, hc⟩
    · rw [hres, h] at hok; simp at hok
    · rw [hres, h]
      rw [h1, outcome_access, outcome_access, ← h1, h2] at hc
      refine ⟨rfl, fun hw k => ?_, fun hw => ?_⟩
      · simp only [hc, if_pos hw]
        rw [storedConfig_persisted w.config user _ a provider hu hp, lookup_merged, overlay,
          lookup_tokenConfig]
        by_cases hk : k = "id-token"
        · simp [hk]
        · by_cases hk2 : k = "refresh-token"
          · simp [hk2, hr]
          · simp [hk, hk2]
      · simp only [hc, if_neg hw]

/-- Witness of C6 as amended: the exchange rotates the refresh token of
"alice" and every file access succeeds. -/
theorem updateToken_persists_witness :
    (storedConfig (updateToken (oidcReturning rotatedToken) "alice" aliceWorld).2.config
        "alice").lookup "id-token" = some "fresh" ∧
    (storedConfig (updateToken (oidcReturning rotatedToken) "alice" aliceWorld).2.config
        "alice").lookup "refresh-token" = some "r2" :=
  have h := (updateToken_persists (oidcReturning rotatedToken) "alice" aliceWorld aliceWorld ()
    rotatedToken "fresh" rfl rfl rfl).2.2 aliceAuthInfo
    { name := "oidc", config := some staleConfig } rfl rfl rfl (by decide)
  ⟨((h.2.1 ⟨rfl, rfl⟩) "id-token").trans (by decide),
   ((h.2.1 ⟨rfl, rfl⟩) "refresh-token").trans (by decide)⟩

/-- C2, the claim refuted: on the store `readOnlyWorld`, which holds
{id-token: "stale", refresh-token: "r1"} for "alice", the exchange returns
`freshToken` (id token "fresh", empty refresh token), the write of
`ModifyConfig` fails, `Persist` discards that error, and `updateToken`
succeeds with the token while the stored "id-token" is still "stale", not the
returned one. -/
theorem updateToken_keeps_refresh_token_counterexample :
    (storedConfig readOnlyWorld.config "alice").lookup "refresh-token" = some "r1" ∧
    oidcAuthHelperFromConfig (oidcReturning freshToken) "alice" readOnlyWorld =
      (.ok (), readOnlyWorld.access.2) ∧
    (oidcReturning freshToken).getToken () = .ok freshToken ∧
    freshToken.extra "id_token" = some (.str "fresh") ∧
    freshToken.refreshToken = "" ∧
    (updateToken (oidcReturning freshToken) "alice" readOnlyWorld).1 =
      (some freshToken, none) ∧
    (storedConfig (updateToken (oidcReturning freshToken) "alice" readOnlyWorld).2.config
        "alice").lookup "id-token" = some "stale" ∧
    (storedConfig (updateToken (oidcReturning freshToken) "alice" readOnlyWorld).2.config
        "alice").lookup "id-token" ≠ some "fresh" :=
  ⟨rfl, rfl, rfl, rfl, rfl, rfl, rfl, by decide⟩

/-- C2 as amended: for a user whose stored provider config holds the non-empty
refresh token `r`, when the exchange returns a token with string id token `t`
and an empty refresh token and `updateToken` succeeds, the stored
"refresh-token" is still `r` (neither removed nor set to the empty string);
the stored "id-token" is `t` when neither file access of `ModifyConfig` (the
fourth and fifth access of `updateToken`) fails, and the store is as it was
when one of them fails. -/
theorem updateToken_keeps_refresh_token {HelperConfig Helper : Type}
    (oidc : Oidc HelperConfig Helper) (user : String) (w w1 : World) (helper : Helper)
    (tok : Token) (t r : String)
    (hstored : (storedConfig w.config user).lookup "refresh-token" = some r)
    (hr : r ≠ "")
    (hh : oidcAuthHelperFromConfig oidc user w = (.ok helper, w1))
    (ht : oidc.getToken helper = .ok tok)
    (hid : tok.extra "id_token" = some (.str t))
    (hempty : tok.refreshToken = "")
    (hok : (updateToken oidc user w).1.2 = none) :
    (updateToken oidc user w).1.1 = some tok ∧
    (storedConfig (updateToken oidc user w).2.config user).lookup "refresh-token" = some r ∧
    (storedConfig (updateToken oidc user w).2.config user).lookup "refresh-token" ≠ some "" ∧
    ((w.outcome 3 = none ∧ w.outcome 4 = none) →
      (storedConfig (updateToken oidc user w).2.config user).lookup "id-token" = some t) ∧
    (¬(w.outcome 3 = none ∧ w.outcome 4 = none) →
      (updateToken oidc user w).2.config = w.config) := by
  obtain ⟨a, provider, hu, hp⟩ := storedConfig_lookup_some w.config user _ _ hstored
  obtain ⟨h1, h2, -⟩ := oidcAuthHelperFromConfig_ok oidc user w w1 helper hh
  have hres := updateToken_after_exchange oidc user w w1 helper tok t hh ht hid
  have hne : "refresh-token" ≠ "id-token" := by decide
  rcases updateAuthProviderConfig_cases user (tokenConfig t tok) w1
    with ⟨e, w2, h, hc⟩ | ⟨w2, h, -, hc⟩
  · rw [hres, h] at hok; simp at hok
  · rw [hres, h]
    rw [h1, outcome_access, outcome_access, ← h1, h2] at hc
    simp only [hc]
    by_cases hw : w.outcome 3 = none ∧ w.outcome 4 = none
    · rw [if_pos hw, storedConfig_persisted w.config user _ a provider hu hp, lookup_merged,
        lookup_merged, overlay, overlay, lookup_tokenConfig, lookup_tokenConfig]
      simp [hempty, hstored, hne, hr, hw]
    · rw [if_neg hw]
      simp [hstored, hr, hw]

/-- Witness of C2 as amended: stored {id-token: "stale", refresh-token: "r1"}
and exchange result {id_token: "fresh", refresh_token: ""} leave
{id-token: "fresh", refresh-token: "r1"} when every file access succeeds. -/
theorem updateToken_keeps_refresh_token_witness :
    (storedConfig (updateToken (oidcReturning freshToken) "alice" aliceWorld).2.config
        "alice").lookup "refresh-token" = some "r1" ∧
    (storedConfig (updateToken (oidcReturning freshToken) "alice" aliceWorld).2.config
        "alice").lookup "id-token" = some "fresh" ∧
    storedConfig (updateToken (oidcReturning freshToken) "alice" aliceWorld).2.config "alice" =
      ((∅ : StrMap).insert "refresh-token" "r1").insert "id-token" "fresh" :=
  have h := updateToken_keeps_refresh_token (oidcReturning freshToken) "alice" aliceWorld
    aliceWorld () freshToken "fresh" "r1" (by decide) (by decide) rfl rfl rfl rfl rfl
  ⟨h.2.1, h.2.2.2.1 ⟨rfl, rfl⟩, rfl⟩

/-- C7, the claim refuted: on the store `unreadableWorld` the exchange returns
`freshToken`, whose "id_token" is the string "fresh"; persisting fails because
`updateAuthProviderConfig` cannot read the store again, and `updateToken`
returns that error together with a nil token, not the token the exchange
produced. -/
theorem updateToken_persist_failure_counterexample :
    oidcAuthHelperFromConfig (oidcReturning freshToken) "alice" unreadableWorld =
      (.ok (), unreadableWorld.access.2) ∧
    (oidcReturning freshToken).getToken () = .ok freshToken ∧
    freshToken.extra "id_token" = some (.str "fresh") ∧
    (updateAuthProviderConfig "alice" (tokenConfig "fresh" freshToken)
      unreadableWorld.access.2).1 = some "error loading config file" ∧
    (updateToken (oidcReturning freshToken) "alice" unreadableWorld).1.2 =
      some "error loading config file" ∧
    (updateToken (oidcReturning freshToken) "alice" unreadableWorld).1.1 = none ∧
    (updateToken (oidcReturning freshToken) "alice" unreadableWorld).1.1 ≠ some freshToken :=
  ⟨rfl, rfl, rfl, rfl, rfl, rfl, by decide⟩

/-- C7 as amended: when the exchange returned a token with a string id token
and `updateAuthProviderConfig` returns the error `e`, `updateToken` reports
`e` to its caller and returns no token. -/
theorem updateToken_persist_failure {HelperConfig Helper : Type}
    (oidc : Oidc HelperConfig Helper) (user : String) (w w1 : World) (helper : Helper)
    (tok : Token) (t : String) (e : Err)
    (hh : oidcAuthHelperFromConfig oidc user w = (.ok helper, w1))
    (ht : oidc.getToken helper = .ok tok)
    (hid : tok.extra "id_token" = some (.str t))
    (hfail : (updateAuthProviderConfig user (tokenConfig t tok) w1).1 = some e) :
    (updateToken oidc user w).1 = (none, some e) := by
  rw [updateToken_after_exchange oidc user w w1 helper tok t hh ht hid]
  rcases hu : updateAuthProviderConfig user (tokenConfig t tok) w1 with ⟨_ | e2, w2⟩
  · rw [hu] at hfail; simp at hfail
  · rw [hu] at hfail
    simp only at hfail
    simp [Option.some.inj hfail]

/-- Witness of C7 as amended: on `lockedWorld` the read of the starting config
by `Persist` fails. -/
theorem updateToken_persist_failure_witness :
    (updateToken (oidcReturning freshToken) "alice" lockedWorld).1 =
      (none, some "error loading config file") :=
  updateToken_persist_failure (oidcReturning freshToken) "alice" lockedWorld
    lockedWorld.access.2 () freshToken "fresh" "error loading config file" rfl rfl rfl rfl

/-- C8: when `createOidcAuthInfo` succeeds (which it does only on a store in
which the user had no entry) and the store can then be read, `getAuthInfo`
returns a record whose auth provider is named "oidc" with an empty config
mapping (every other field at its zero value), `isOidc` holds for it, and
`getAuthProviderConfig` returns the empty mapping. -/
theorem createOidcAuthInfo_creates (user : String) (w : World)
    (hok : (createOidcAuthInfo user w).1 = none)
    (hread : (createOidcAuthInfo user w).2.access.1 = none) :
    w.config.authInfos.lookup user = none ∧
    ∃ r, (getAuthInfo user (createOidcAuthInfo user w).2).1 = .ok (some r) ∧
      r.authProvider = some { name := "oidc", config := some ∅ } ∧
      r = { newAuthInfo with authProvider := r.authProvider } ∧
      isOidc (some r) = true ∧
      (getAuthProviderConfig user (createOidcAuthInfo user w).2).1 = .ok ∅ := by
  rcases createOidcAuthInfo_cases user w with ⟨e, w1, h, hc⟩ | ⟨w1, h, habsent, hc⟩
  · rw [h] at hok; simp at hok
  · rw [h] at hread ⊢
    simp only at hread ⊢
    have hl : w1.config.authInfos.lookup user = some freshOidcAuthInfo := by
      rw [hc]; exact AList.lookup_insert _
    refine ⟨habsent, freshOidcAuthInfo, ?_, rfl, rfl, rfl, ?_⟩
    · rcases getAuthInfo_cases user w1 with ⟨e, w2, hg, ha, -⟩ | ⟨w2, hg, -, -⟩
      · rw [ha] at hread; simp at hread
      · rw [hg, hl]
    · rcases getAuthProviderConfig_cases user w1 with ⟨e, w2, hg, ha, -⟩ | ⟨w2, hg, -, -⟩
      · rw [ha] at hread; simp at hread
      · rw [hg]
        simp [storedConfig, hl, freshOidcAuthInfo]

/-- Witness of C8: the empty store and the user "alice". -/
theorem createOidcAuthInfo_creates_witness :
    emptyWorld.config.authInfos.lookup "alice" = none ∧
    ∃ r, (getAuthInfo "alice" (createOidcAuthInfo "alice" emptyWorld).2).1 = .ok (some r) ∧
      r.authProvider = some { name := "oidc", config := some ∅ } ∧
      r = { newAuthInfo with authProvider := r.authProvider } ∧
      isOidc (some r) = true ∧
      (getAuthProviderConfig "alice" (createOidcAuthInfo "alice" emptyWorld).2).1 = .ok ∅ :=
  createOidcAuthInfo_creates "alice" emptyWorld rfl rfl

/-- C1, the claim refuted: "carol" has no entry in the store `aliceConfig`, so
her stored mapping is empty; `updateAuthProviderConfig` with {id-token: "fresh"}
returns no error, the following `getAuthProviderConfig` returns the empty
mapping, and the overlay demands "id-token" to map to "fresh". -/
theorem updateAuthProviderConfig_absent_user_counterexample :
    (getAuthProviderConfig "carol" aliceWorld).1 = .ok ∅ ∧
    (updateAuthProviderConfig "carol" idTokenOnly aliceWorld).1 = none ∧
    (getAuthProviderConfig "carol"
      (updateAuthProviderConfig "carol" idTokenOnly aliceWorld).2).1 = .ok ∅ ∧
    (∅ : StrMap).lookup "id-token" = none ∧
    overlay ∅ idTokenOnly "id-token" = some "fresh" :=
  ⟨rfl, rfl, rfl, rfl, rfl⟩

/-- C1 as amended: for a user that has an entry with an auth provider, with
stored provider config `M`, when `updateAuthProviderConfig user P` returns no
error and the store can then be read, the following `getAuthProviderConfig`
returns `M` overlaid with `P` (a key of `P` has the value of `P`, a key only in
`M` keeps the value of `M`, a key in neither is absent) when neither file
access of `ModifyConfig` (the third and fourth access of the update) fails,
and returns `M` unchanged when one of them fails. -/
theorem updateAuthProviderConfig_merge (user : String) (M P : StrMap) (w : World)
    (a : AuthInfo) (provider : AuthProviderConfig)
    (hu : (getAuthInfo user w).1 = .ok (some a))
    (hp : a.authProvider = some provider)
    (hM : (getAuthProviderConfig user w).1 = .ok M)
    (hok : (updateAuthProviderConfig user P w).1 = none)
    (hread : (updateAuthProviderConfig user P w).2.access.1 = none) :
    ∃ m, (getAuthProviderConfig user (updateAuthProviderConfig user P w).2).1 = .ok m ∧
      ((w.outcome 2 = none ∧ w.outcome 3 = none) →
        ∀ k, m.lookup k =
          match P.lookup k with
          | some v => some v
          | none => M.lookup k) ∧
      (¬(w.outcome 2 = none ∧ w.outcome 3 = none) → m = M) := by
  have hu2 : w.config.authInfos.lookup user = some a := by
    rcases getAuthInfo_cases user w with ⟨e, w1, hg, -, -⟩ | ⟨w1, hg, -, -⟩
    · rw [hg] at hu; simp at hu
    · rw [hg] at hu; simpa using hu
  have hM2 : storedConfig w.config user = M := by
    rcases getAuthProviderConfig_cases user w with ⟨e, w1, hg, -, -⟩ | ⟨w1, hg, -, -⟩
    · rw [hg] at hM; simp at hM
    · rw [hg] at hM; simpa using hM
  rcases updateAuthProviderConfig_cases user P w with ⟨e, w1, h, hc⟩ | ⟨w1, h, -, hc⟩
  · rw [h] at hok; simp at hok
  · rw [h] at hread ⊢
    simp only at hread ⊢
    rcases getAuthProviderConfig_cases user w1 with ⟨e, w2, hg, ha, -⟩ | ⟨w2, hg, -, -⟩
    · rw [ha] at hread; simp at hread
    · refine ⟨_, by rw [hg], fun hw k => ?_, fun hw => ?_⟩
      · rw [hc, if_pos hw, storedConfig_persisted w.config user _ a provider hu2 hp,
          lookup_merged, hM2]
        rfl
      · rw [hc, if_neg hw, hM2]

/-- Witness of C1 as amended: {id-token: "fresh"} merged into the stored
config of "alice" when every file access succeeds. -/
theorem updateAuthProviderConfig_merge_witness :
    ∃ m, (getAuthProviderConfig "alice"
        (updateAuthProviderConfig "alice" idTokenOnly aliceWorld).2).1 = .ok m ∧
      ∀ k, m.lookup k =
        match idTokenOnly.lookup k with
        | some v => some v
        | none => staleConfig.lookup k :=
  have h := updateAuthProviderConfig_merge "alice" staleConfig idTokenOnly aliceWorld
    aliceAuthInfo { name := "oidc", config := some staleConfig } rfl rfl rfl rfl rfl
  h.elim fun m hm => ⟨m, hm.1, hm.2.1 ⟨rfl, rfl⟩⟩

end KubeOidc
